import Mathlib

/-!
# Verification of `cms/server/__init__.py`

A shallow embedding of the request-handling support layer of the CMS web
front end: the archive extractor `extract_archive`, the middleware
decorators `decrypt_arguments` and `catch_exceptions`, and the chunked
file-delivery pair `fetch` / `_fetch_write_chunk` of the handler class
produced by `file_handler_gen`.

Python byte strings are modelled as `List Nat`, wall-clock instants as `Rat`,
and exceptions as the inductive `PyExc`; a computation that may raise
returns `Except PyExc _`.  External collaborators (the `zipfile` and
`tarfile` parsers, `FileCacher.get_file`, `decrypt_number`) are oracles
passed in as function arguments, so each embedded operation is a pure,
executable function of its inputs and those oracles.
-/

set_option autoImplicit false

namespace CmsServer

/-- Python exceptions relevant to this module (all `Exception` subclasses;
`BaseException`-only interrupts are out of scope).  `tarError` stands for
`tarfile.TarError`, `ioError` for `IOError`; in Python 2 these are distinct
from other exception classes such as `ValueError` or `MemoryError`, which
are modelled by `other`. -/
inductive PyExc where
  | valueError
  | tarError
  | ioError
  | attributeError
  | httpError (code : Nat)
  | other (name : String)
deriving DecidableEq, Repr

/-- One extracted archive entry: the dict
`{"filename": ..., "body": ...}` built by `extract_archive`. -/
structure FileEntry where
  filename : String
  body : List Nat
deriving DecidableEq, Repr

/-- A member of a TAR container as surfaced by `tarfile`: its stored
name, whether `item.isfile()` holds, and what
`tar_object.extractfile(item).read()` yields (bytes, or an exception). -/
structure TarMember where
  name : String
  isfile : Bool
  content : Except PyExc (List Nat)
deriving Repr

/-- The filesystem/parser oracle.  `zipParse p` is the result of
`zipfile.ZipFile(p, "r")` followed by `infolist()`: either an exception,
or the entry list, each entry carrying its stored name and the result of
`zip_object.read(item)`.  `tarParse p` is the result of
`tarfile.open(name=p)` followed by `getmembers()`: either an exception or
the member list. -/
structure FS where
  zipParse : String → Except PyExc (List (String × Except PyExc (List Nat)))
  tarParse : String → Except PyExc (List TarMember)

/-- Python `str.endswith(suffix)`, decided on the string's character
list (the builtin `String.endsWith` is not kernel-reducible). -/
def endswith (s suffix : String) : Bool :=
  suffix.data.isSuffixOf s.data

/-- The ZIP read loop of `extract_archive`: read every entry in order,
raising the first per-entry exception. -/
def zipReadAll : List (String × Except PyExc (List Nat)) → Except PyExc (List FileEntry)
  | [] => .ok []
  | (n, b) :: rest =>
    match b with
    | .error e => .error e
    | .ok bytes =>
      match zipReadAll rest with
      | .error e => .error e
      | .ok l => .ok ({ filename := n, body := bytes } :: l)

/-- The TAR read loop of `extract_archive`: keep only members with
`item.isfile()`, reading each kept member's content in order, raising the
first per-member exception. -/
def tarReadFiles : List TarMember → Except PyExc (List FileEntry)
  | [] => .ok []
  | m :: rest =>
    if m.isfile then
      match m.content with
      | .error e => .error e
      | .ok bytes =>
        match tarReadFiles rest with
        | .error e => .error e
        | .ok l => .ok ({ filename := m.name, body := bytes } :: l)
    else tarReadFiles rest

/-- Is an exception caught by the TAR branch's
`except tarfile.TarError` / `except IOError` clauses? -/
def caughtByTarBranch (e : PyExc) : Bool :=
  e = PyExc.tarError || e = PyExc.ioError

/-- `extract_archive(temp_name, original_filename)`.

The result distinguishes raising to the caller (`.error e`) from
returning the failure sentinel `None` (`.ok none`) and from returning a
file list (`.ok (some l)`).

Faithful to the source, including:
* the ZIP branch opens `zipfile.ZipFile(original_filename, "r")` — the
  *original* filename, not `temp_name`;
* the ZIP branch's `except Exception` catches every exception;
* the TAR branch opens `tarfile.open(name=temp_name)` and catches only
  `tarfile.TarError` and `IOError`. -/
def extract_archive (fs : FS) (temp_name original_filename : String) :
    Except PyExc (Option (List FileEntry)) :=
  if endswith original_filename ".zip" then
    match fs.zipParse original_filename with
    | .error _ => .ok none
    | .ok entries =>
      match zipReadAll entries with
      | .error _ => .ok none
      | .ok l => .ok (some l)
  else if endswith original_filename ".tar.gz"
      || endswith original_filename ".tar.bz2"
      || endswith original_filename ".tar" then
    match fs.tarParse temp_name with
    | .error e => if caughtByTarBranch e then .ok none else .error e
    | .ok members =>
      match tarReadFiles members with
      | .error e => if caughtByTarBranch e then .ok none else .error e
      | .ok l => .ok (some l)
  else
    .ok none

/-! ## Chunked file delivery: `fetch` and `_fetch_write_chunk`

Log calls are recorded structurally, one constructor per `logger` call
site, with the fields that fill the format string's slots. -/

/-- A log emission.  `noDigest` is `logger.error("No digest given")`;
`retrieveError f e` is the `logger.error` naming the download filename
and the caught exception; `throughput d s r` is the terminal
`logger.info` of `_fetch_write_chunk` with duration `d` seconds, size `s`
MB and rate `r` MB/s; `undecryptable u` is the `logger.warning` of
`decrypt_arguments` naming user `u`; `critical e tb` is the
`logger.critical` of `catch_exceptions` with the exception and its
traceback. -/
inductive LogMsg where
  | noDigest
  | retrieveError (filename : String) (err : PyExc)
  | throughput (duration sizeMB rate : Rat)
  | undecryptable (username : String)
  | critical (err : PyExc) (traceback : String)
deriving DecidableEq, Repr

/-- The observable effects of one call to `FileHandler.fetch`. -/
structure FetchEff where
  logs : List LogMsg
  /-- whether `file_cacher.get_file` was invoked -/
  cacherCalled : Bool
  /-- `set_header` calls, in order -/
  headers : List (String × String)
  /-- the path passed to `open(..., "rb")`, when reached -/
  fileOpened : Option String
  /-- whether `add_timeout` scheduled `_fetch_write_chunk` -/
  scheduled : Bool
  /-- whether `self.finish()` was called by `fetch` itself -/
  finished : Bool
  /-- bytes written to the client by `fetch` itself -/
  body : List Nat
deriving DecidableEq, Repr

/-- `FileHandler.fetch(digest, content_type, filename)`.
`get_file` is the `FileCacher` oracle: the digest either resolves to a
temporary path or raises.  `fetch` performs no writes itself; on success
the body is produced later by the scheduled read loop. -/
def fetch (get_file : String → Except PyExc String)
    (digest content_type filename : String) : FetchEff :=
  if digest = "" then
    { logs := [LogMsg.noDigest], cacherCalled := false, headers := [],
      fileOpened := none, scheduled := false, finished := true, body := [] }
  else
    match get_file digest with
    | .error e =>
      { logs := [LogMsg.retrieveError filename e], cacherCalled := true,
        headers := [], fileOpened := none, scheduled := false,
        finished := true, body := [] }
    | .ok temp_filename =>
      { logs := [], cacherCalled := true,
        headers := [("Content-Type", content_type),
                    ("Content-Disposition",
                     "attachment; filename=\"" ++ filename ++ "\"")],
        fileOpened := some temp_filename, scheduled := true,
        finished := false, body := [] }

/-- The per-delivery session state mutated by `_fetch_write_chunk`.
`content` is the byte content of the temporary file, `pos` the read
position of the open handle, `written` the bytes passed to
`self.write`, `sizeMB` the accumulated `self.size` counter (exact, in
`Rat`), `startTime` the recorded `self.start_time`.  `connClosed` models
whether the client has closed the underlying connection (the handler
code never consults it).  `stopped` records that a step returned
`False`, after which the scheduler never invokes the step again. -/
structure DState where
  content : List Nat
  pos : Nat
  written : List Nat
  sizeMB : Rat
  startTime : Rat
  handleOpen : Bool
  tempDeleted : Bool
  finished : Bool
  connClosed : Bool
  stopped : Bool
  logs : List LogMsg
deriving DecidableEq, Repr

/-- The session state right after a successful `fetch` opened the file:
position 0, nothing written, `self.size = 0`, `self.start_time = t0`. -/
def initD (content : List Nat) (t0 : Rat) : DState :=
  { content := content, pos := 0, written := [], sizeMB := 0,
    startTime := t0, handleOpen := true, tempDeleted := false,
    finished := false, connClosed := false, stopped := false, logs := [] }

/-- One invocation of `FileHandler._fetch_write_chunk`, at wall time
`now`.  `chunkSize` is `FileCacher.CHUNK_SIZE` — modelled from the spec:
`FileCacher` is not under the embedded sources; the spec describes
`transferChunkSize` as a fixed positive integer shared constant, so it is
a parameter here.  The step reads up to one chunk from the handle, writes
it, bumps the MB counter, and on a short read closes the handle, unlinks
the temporary file, logs throughput, finishes the response and returns
`False` (modelled by `stopped := true`; the guard on `stopped` encodes
the scheduler contract that a step returning `False` is never invoked
again). -/
def fetch_write_chunk (chunkSize : Nat) (now : Rat) (s : DState) : DState :=
  if s.stopped then s
  else
    let data := (s.content.drop s.pos).take chunkSize
    let length := data.length
    let sizeMB := s.sizeMB + (length : Rat) / 1024 / 1024
    let written := s.written ++ data
    let pos := s.pos + length
    if length < chunkSize then
      let duration := now - s.startTime
      { s with pos := pos, written := written, sizeMB := sizeMB,
               handleOpen := false, tempDeleted := true, finished := true,
               stopped := true,
               logs := s.logs ++ [LogMsg.throughput duration sizeMB
                                    (sizeMB / duration)] }
    else
      { s with pos := pos, written := written, sizeMB := sizeMB }

/-- `k` scheduled invocations of `_fetch_write_chunk` (the inter-step
delay does not affect the state, so a single `now` suffices for the
terminal step's timing). -/
def stepIter (chunkSize : Nat) (now : Rat) : Nat → DState → DState
  | 0, s => s
  | k + 1, s => fetch_write_chunk chunkSize now (stepIter chunkSize now k s)

/-! ## Middleware decorators -/

/-- Outcome of a Python call: a returned value, or an exception
propagating to the caller. -/
inductive PyResult (α : Type) where
  | ok (v : α)
  | raised (e : PyExc)
deriving DecidableEq, Repr

/-- The observable behaviour of one call to the `newfunc` produced by
`decrypt_arguments`.  `decryptCalls` lists the tokens passed to
`decrypt_number`, in order; `invoked` records whether the wrapped handler
was called. -/
structure WrapOut (α : Type) where
  logs : List LogMsg
  decryptCalls : List String
  invoked : Bool
  result : PyResult α
deriving DecidableEq, Repr

/-- The `except ValueError` branch of `decrypt_arguments`: evaluate
`self.current_user.username` (an `AttributeError` when `current_user` is
`None`, so `logger.warning` is never reached), else log the warning and
raise `HTTPError(403)`.  `calls` are the decryption attempts made so
far. -/
def decryptFail (α : Type) (user : Option String) (calls : List String) :
    WrapOut α :=
  match user with
  | some u =>
    { logs := [LogMsg.undecryptable u], decryptCalls := calls,
      invoked := false, result := PyResult.raised (PyExc.httpError 403) }
  | none =>
    { logs := [], decryptCalls := calls, invoked := false,
      result := PyResult.raised PyExc.attributeError }

/-- The positional-argument loop of `decrypt_arguments`: returns the
tokens handed to `decrypt_number` and, when every call succeeded, the
decrypted list.  `decrypt t = none` models `decrypt_number(t)` raising
`ValueError`. -/
def decryptLoop (decrypt : String → Option Nat) :
    List String → List String × Option (List Nat)
  | [] => ([], some [])
  | t :: ts =>
    match decrypt t with
    | none => ([t], none)
    | some n =>
      let r := decryptLoop decrypt ts
      (t :: r.1, (r.2).map fun l => n :: l)

/-- The keyword-argument loop of `decrypt_arguments` over the (ordered)
key/token pairs of `kwargs`. -/
def decryptKwLoop (decrypt : String → Option Nat) :
    List (String × String) → List String × Option (List (String × Nat))
  | [] => ([], some [])
  | (k, t) :: ps =>
    match decrypt t with
    | none => ([t], none)
    | some n =>
      let r := decryptKwLoop decrypt ps
      (t :: r.1, (r.2).map fun l => (k, n) :: l)

/-- The `newfunc` produced by `decrypt_arguments(func)`, called with
positional argument tokens `args` and keyword pairs `kwargs` on a handler
whose `current_user.username` is `user` (or `current_user = None` when
`user = none`).  Decrypts positional arguments first, then keyword
arguments; on the first `ValueError` it enters `decryptFail`; otherwise
it calls `func` on the decrypted values. -/
def decrypt_arguments {α : Type} (decrypt : String → Option Nat)
    (user : Option String) (func : List Nat → List (String × Nat) → α)
    (args : List String) (kwargs : List (String × String)) : WrapOut α :=
  match decryptLoop decrypt args with
  | (calls, none) => decryptFail α user calls
  | (callsA, some new_args) =>
    match decryptKwLoop decrypt kwargs with
    | (callsK, none) => decryptFail α user (callsA ++ callsK)
    | (callsK, some new_kwargs) =>
      { logs := [], decryptCalls := callsA ++ callsK, invoked := true,
        result := PyResult.ok (func new_args new_kwargs) }

/-- Outcome of calling the wrapped handler inside `catch_exceptions`:
a value, or an exception together with the traceback string that
`traceback.format_exc()` would render for it. -/
inductive HOut (α : Type) where
  | ok (v : α)
  | raise (e : PyExc) (tb : String)
deriving DecidableEq, Repr

/-- The observable behaviour of one call to the `newfunc` produced by
`catch_exceptions`: log emissions, strings written to the client,
whether `self.finish()` ran, and the call's own outcome (`.ok none`
models returning Python `None` after handling). -/
structure CEOut (α : Type) where
  logs : List LogMsg
  written : List String
  finished : Bool
  result : PyResult (Option α)
deriving DecidableEq, Repr

/-- The `newfunc` produced by `catch_exceptions(func)`: `HTTPError`
re-raises unchanged; any other exception is logged critically with its
traceback, a generic message is written, and the response is finished;
a normal return passes through. -/
def catch_exceptions {α : Type} (func : Unit → HOut α) : CEOut α :=
  match func () with
  | HOut.ok v =>
    { logs := [], written := [], finished := false,
      result := PyResult.ok (some v) }
  | HOut.raise (PyExc.httpError c) _ =>
    { logs := [], written := [], finished := false,
      result := PyResult.raised (PyExc.httpError c) }
  | HOut.raise e tb =>
    { logs := [LogMsg.critical e tb],
      written := ["A critical error has occurred :-("], finished := true,
      result := PyResult.ok none }

/-- Spec-side description of which decryption attempts are made: the
tokens tried in order, up to and including the first one on which
`decrypt_number` raises (all of them when none fails). -/
def attemptedUpTo (decrypt : String → Option Nat) : List String → List String
  | [] => []
  | t :: ts =>
    match decrypt t with
    | none => [t]
    | some _ => t :: attemptedUpTo decrypt ts

/-- The bytes under an `Except.ok`, for stating what a successful read
loop returns (`[]` is never used: it is only applied where the read is
known to have succeeded). -/
def readBytes (c : Except PyExc (List Nat)) : List Nat :=
  match c with
  | .ok b => b
  | .error _ => []

/-! ## Concrete oracles used by the counterexample theorems -/

/-- A decryption oracle for witnesses: every token decrypts to `1`
except `tokB`, on which `decrypt_number` raises `ValueError`. -/
def dEx : String → Option Nat :=
  fun t => if t = "tokB" then none else some 1

/-- The members of the witness TAR container: a regular file `a.txt`,
a directory `dir`, and a regular file `dir/b.txt`, in that order. -/
def tarMembersEx : List TarMember :=
  [{ name := "a.txt", isfile := true, content := Except.ok [97] },
   { name := "dir", isfile := false,
     content := Except.error PyExc.tarError },
   { name := "dir/b.txt", isfile := true, content := Except.ok [98, 99] }]

/-- A filesystem holding the members `tarMembersEx` as a TAR container
at the temporary path `/tmp/tmpTar`. -/
def tarFS : FS :=
  { zipParse := fun _ => Except.error PyExc.ioError,
    tarParse := fun p =>
      if p = "/tmp/tmpTar" then Except.ok tarMembersEx
      else Except.error PyExc.tarError }

/-- A filesystem whose only readable ZIP container sits at the temporary
path `/tmp/tmpXYZ`; opening any other path raises `IOError`. -/
def zipAtTemp : FS :=
  { zipParse := fun p =>
      if p = "/tmp/tmpXYZ" then Except.ok [("a.txt", Except.ok [97, 98])]
      else Except.error PyExc.ioError,
    tarParse := fun _ => Except.error PyExc.tarError }

/-- A filesystem holding a (different) ZIP container at the path equal to
the client-supplied original filename `other.zip`. -/
def zipAtOriginal : FS :=
  { zipParse := fun p =>
      if p = "other.zip" then Except.ok [("wrong.txt", Except.ok [99])]
      else Except.error PyExc.ioError,
    tarParse := fun _ => Except.error PyExc.tarError }

/-- A filesystem on which opening any TAR container raises an exception
that is neither `tarfile.TarError` nor `IOError` (e.g. `MemoryError`,
which Python 2 `tarfile` can raise while buffering a huge member). -/
def tarRaisesOther : FS :=
  { zipParse := fun _ => Except.error PyExc.ioError,
    tarParse := fun _ => Except.error (PyExc.other "MemoryError") }

/-- A delivery session mid-stream: a 4-byte file, first 2-byte chunk
already delivered, and the client has since closed the connection. -/
def closedConnState : DState :=
  { content := [10, 11, 12, 13], pos := 2, written := [10, 11],
    sizeMB := 2 / 1024 / 1024, startTime := 0, handleOpen := true,
    tempDeleted := false, finished := false, connClosed := true,
    stopped := false, logs := [] }

/-! ## Claim theorems -/

/-- C1: refuted by the code — `extract_archive` opens the ZIP container
at `original_filename`, not at the caller-supplied temporary path
`temp_name`.  With a well-formed ZIP at the temporary path
`/tmp/tmpXYZ` and nothing readable at `sub.zip`, the call returns the
failure sentinel instead of the archive's entries; and when a file does
exist at the original filename's path, its entries are returned
instead of the temporary file's. -/
theorem extract_archive_zip_opens_original_filename :
    extract_archive zipAtTemp "/tmp/tmpXYZ" "sub.zip" = Except.ok none ∧
    zipAtTemp.zipParse "/tmp/tmpXYZ" =
      Except.ok [("a.txt", Except.ok [97, 98])] ∧
    extract_archive zipAtOriginal "/tmp/tmpXYZ" "other.zip" =
      Except.ok (some [{ filename := "wrong.txt", body := [99] }]) :=
  ⟨rfl, rfl, rfl⟩

/-- C2: refuted by the code — `_fetch_write_chunk` contains no
closed-connection detection: on the next scheduled step after the client
closes mid-stream (a full chunk still unread) it does not close the
handle, does not delete the temporary file, and keeps rescheduling; in
fact the step function is entirely independent of the connection's
closed flag, so cleanup can only happen through the normal short-read
condition. -/
theorem fetch_write_chunk_ignores_closed_connection :
    (fetch_write_chunk 2 1 closedConnState).tempDeleted = false ∧
    (fetch_write_chunk 2 1 closedConnState).handleOpen = true ∧
    (fetch_write_chunk 2 1 closedConnState).stopped = false ∧
    (∀ (s : DState) (cs : Nat) (now : Rat),
       fetch_write_chunk cs now { s with connClosed := true } =
         { fetch_write_chunk cs now s with connClosed := true }) := by
  refine ⟨rfl, rfl, rfl, ?_⟩
  intro s cs now
  cases s
  simp only [fetch_write_chunk]
  split
  · rfl
  · split <;> rfl

/-- C9: a `fetch` with an empty digest logs the error and finishes at
once with an empty body — the cacher is never contacted, no header is
set, no handle is opened, and the read loop is never scheduled. -/
theorem fetch_empty_digest (get_file : String → Except PyExc String)
    (content_type filename : String) :
    fetch get_file "" content_type filename =
      { logs := [LogMsg.noDigest], cacherCalled := false, headers := [],
        fileOpened := none, scheduled := false, finished := true,
        body := [] } := rfl

/-- C8: when `file_cacher.get_file` raises, `fetch` logs an error naming
the download filename and the exception, finishes the response with no
body, and stops: no header is set, no handle is opened, the read loop is
never scheduled, and no throughput entry is ever logged. -/
theorem fetch_get_file_failure (get_file : String → Except PyExc String)
    (digest content_type filename : String) (e : PyExc)
    (hd : digest ≠ "") (hgf : get_file digest = Except.error e) :
    fetch get_file digest content_type filename =
      { logs := [LogMsg.retrieveError filename e], cacherCalled := true,
        headers := [], fileOpened := none, scheduled := false,
        finished := true, body := [] } := by
  unfold fetch
  rw [if_neg hd, hgf]

/-- Witness for C8 at a concrete failing cacher. -/
theorem fetch_get_file_failure_witness :
    ("d1ge5t" : String) ≠ "" ∧
    (fun _ : String => (Except.error PyExc.ioError : Except PyExc String))
        "d1ge5t" = Except.error PyExc.ioError ∧
    fetch (fun _ => Except.error PyExc.ioError) "d1ge5t" "text/plain"
        "task.pdf" =
      { logs := [LogMsg.retrieveError "task.pdf" PyExc.ioError],
        cacherCalled := true, headers := [], fileOpened := none,
        scheduled := false, finished := true, body := [] } :=
  ⟨by decide, rfl,
   fetch_get_file_failure _ _ _ _ _ (by decide) rfl⟩

/-- C7: the `newfunc` of `catch_exceptions` passes a normal return
through unchanged, re-raises `HTTPError` unchanged, and turns any other
exception into exactly one critical log entry carrying the traceback, a
generic client-visible message, and a finished response — without
re-raising. -/
theorem catch_exceptions_contract {α : Type} (func : Unit → HOut α) :
    (∀ v, func () = HOut.ok v →
       catch_exceptions func =
         { logs := [], written := [], finished := false,
           result := PyResult.ok (some v) }) ∧
    (∀ c tb, func () = HOut.raise (PyExc.httpError c) tb →
       catch_exceptions func =
         { logs := [], written := [], finished := false,
           result := PyResult.raised (PyExc.httpError c) }) ∧
    (∀ e tb, func () = HOut.raise e tb → (∀ c, e ≠ PyExc.httpError c) →
       catch_exceptions func =
         { logs := [LogMsg.critical e tb],
           written := ["A critical error has occurred :-("],
           finished := true, result := PyResult.ok none }) := by
  refine ⟨?_, ?_, ?_⟩
  · intro v h
    unfold catch_exceptions
    rw [h]
  · intro c tb h
    unfold catch_exceptions
    rw [h]
  · intro e tb h hne
    unfold catch_exceptions
    rw [h]
    cases e with
    | httpError c => exact absurd rfl (hne c)
    | _ => rfl

/-- Witness for C7, exercising all three branches on concrete
handlers. -/
theorem catch_exceptions_contract_witness :
    ((fun _ : Unit => HOut.ok 5) () = HOut.ok 5 ∧
     catch_exceptions (fun _ => HOut.ok 5) =
       { logs := [], written := [], finished := false,
         result := PyResult.ok (some 5) }) ∧
    ((fun _ : Unit => (HOut.raise (PyExc.httpError 404) "" : HOut Nat)) ()
        = HOut.raise (PyExc.httpError 404) "" ∧
     catch_exceptions (fun _ => (HOut.raise (PyExc.httpError 404) "" : HOut Nat)) =
       { logs := [], written := [], finished := false,
         result := PyResult.raised (PyExc.httpError 404) }) ∧
    ((fun _ : Unit => (HOut.raise PyExc.valueError "tb0" : HOut Nat)) ()
        = HOut.raise PyExc.valueError "tb0" ∧
     catch_exceptions (fun _ => (HOut.raise PyExc.valueError "tb0" : HOut Nat)) =
       { logs := [LogMsg.critical PyExc.valueError "tb0"],
         written := ["A critical error has occurred :-("],
         finished := true, result := PyResult.ok none }) :=
  ⟨⟨rfl, (catch_exceptions_contract (fun _ => HOut.ok 5)).1 5 rfl⟩,
   ⟨rfl, (catch_exceptions_contract
       (fun _ => (HOut.raise (PyExc.httpError 404) "" : HOut Nat))).2.1 404 "" rfl⟩,
   ⟨rfl, (catch_exceptions_contract
       (fun _ => (HOut.raise PyExc.valueError "tb0" : HOut Nat))).2.2
       PyExc.valueError "tb0" rfl (by intro c; exact fun h => PyExc.noConfusion h)⟩⟩

/-! ### Lemmas on the decryption loops -/

theorem decryptLoop_fst (d : String → Option Nat) (ts : List String) :
    (decryptLoop d ts).1 = attemptedUpTo d ts := by
  induction ts with
  | nil => rfl
  | cons t ts ih =>
    cases h : d t <;> simp [decryptLoop, attemptedUpTo, h, ih]

theorem decryptKwLoop_fst (d : String → Option Nat)
    (ps : List (String × String)) :
    (decryptKwLoop d ps).1 = attemptedUpTo d (ps.map Prod.snd) := by
  induction ps with
  | nil => rfl
  | cons p ps ih =>
    obtain ⟨k, t⟩ := p
    cases h : d t <;> simp [decryptKwLoop, attemptedUpTo, h, ih]

theorem decryptLoop_none (d : String → Option Nat) (ts : List String)
    (h : ∃ t ∈ ts, d t = none) : (decryptLoop d ts).2 = none := by
  induction ts with
  | nil => simp at h
  | cons t ts ih =>
    cases ht : d t with
    | none => simp [decryptLoop, ht]
    | some n =>
      obtain ⟨x, hx, hdx⟩ := h
      rcases List.mem_cons.mp hx with rfl | hx
      · rw [ht] at hdx; exact absurd hdx (by simp)
      · simp [decryptLoop, ht, ih ⟨x, hx, hdx⟩]

theorem decryptKwLoop_none (d : String → Option Nat)
    (ps : List (String × String)) (h : ∃ p ∈ ps, d p.2 = none) :
    (decryptKwLoop d ps).2 = none := by
  induction ps with
  | nil => simp at h
  | cons p ps ih =>
    obtain ⟨k, t⟩ := p
    cases ht : d t with
    | none => simp [decryptKwLoop, ht]
    | some n =>
      obtain ⟨x, hx, hdx⟩ := h
      rcases List.mem_cons.mp hx with rfl | hx
      · simp only at hdx; rw [ht] at hdx; exact absurd hdx (by simp)
      · simp [decryptKwLoop, ht, ih ⟨x, hx, hdx⟩]

theorem decryptLoop_some_of_all (d : String → Option Nat) (ts : List String)
    (h : ∀ t ∈ ts, d t ≠ none) :
    ∃ l, decryptLoop d ts = (ts, some l) := by
  induction ts with
  | nil => exact ⟨[], rfl⟩
  | cons t ts ih =>
    cases ht : d t with
    | none => exact absurd ht (h t (List.mem_cons_self t ts))
    | some n =>
      obtain ⟨l, hl⟩ := ih fun x hx => h x (List.mem_cons_of_mem t hx)
      exact ⟨n :: l, by simp [decryptLoop, ht, hl]⟩

theorem decryptLoop_of_mapM (d : String → Option Nat) (ts : List String)
    (l : List Nat) (h : ts.mapM d = some l) :
    decryptLoop d ts = (ts, some l) := by
  induction ts generalizing l with
  | nil =>
    simp only [List.mapM_nil, pure, Option.some.injEq] at h
    simp [decryptLoop, ← h]
  | cons t ts ih =>
    rw [List.mapM_cons] at h
    cases ht : d t with
    | none => rw [ht] at h; simp at h
    | some n =>
      rw [ht] at h
      cases hts : ts.mapM d with
      | none => rw [hts] at h; simp at h
      | some xs =>
        rw [hts] at h
        simp only [Option.pure_def, Option.bind_some, Option.some.injEq] at h
        simp [decryptLoop, ht, ih xs hts, ← h]

theorem decryptKwLoop_of_mapM (d : String → Option Nat)
    (ps : List (String × String)) (l : List (String × Nat))
    (h : ps.mapM (fun p => (d p.2).map fun n => (p.1, n)) = some l) :
    decryptKwLoop d ps = (ps.map Prod.snd, some l) := by
  induction ps generalizing l with
  | nil =>
    simp only [List.mapM_nil, pure, Option.some.injEq] at h
    simp [decryptKwLoop, ← h]
  | cons p ps ih =>
    obtain ⟨k, t⟩ := p
    rw [List.mapM_cons] at h
    cases ht : d t with
    | none => simp only at h; rw [ht] at h; simp at h
    | some n =>
      simp only at h
      rw [ht] at h
      cases hps : ps.mapM (fun p => (d p.2).map fun n => (p.1, n)) with
      | none => rw [hps] at h; simp at h
      | some xs =>
        rw [hps] at h
        simp only [Option.map_some, Option.pure_def, Option.bind_some,
          Option.some.injEq] at h
        simp [decryptKwLoop, ht, ih xs hps, ← h]

theorem attemptedUpTo_append_of_all (d : String → Option Nat)
    (xs ys : List String) (h : ∀ t ∈ xs, d t ≠ none) :
    attemptedUpTo d (xs ++ ys) = xs ++ attemptedUpTo d ys := by
  induction xs with
  | nil => rfl
  | cons t ts ih =>
    cases ht : d t with
    | none => exact absurd ht (h t (List.mem_cons_self t ts))
    | some n =>
      simp [attemptedUpTo, ht,
        ih fun x hx => h x (List.mem_cons_of_mem t hx)]

theorem attemptedUpTo_append_of_fail (d : String → Option Nat)
    (xs ys : List String) (h : ∃ t ∈ xs, d t = none) :
    attemptedUpTo d (xs ++ ys) = attemptedUpTo d xs := by
  induction xs with
  | nil => simp at h
  | cons t ts ih =>
    cases ht : d t with
    | none => simp [attemptedUpTo, ht]
    | some n =>
      obtain ⟨x, hx, hdx⟩ := h
      rcases List.mem_cons.mp hx with rfl | hx
      · rw [ht] at hdx; exact absurd hdx (by simp)
      · simp [attemptedUpTo, ht, ih ⟨x, hx, hdx⟩]

/-- Shared failure-path lemma: whenever some token (positional first,
then keyword, in order) fails to decrypt, the wrapper lands in the
`except ValueError` branch having attempted exactly the tokens up to and
including the first failing one, and the handler is not called. -/
theorem decrypt_arguments_fail {α : Type} (d : String → Option Nat)
    (user : Option String) (func : List Nat → List (String × Nat) → α)
    (args : List String) (kwargs : List (String × String))
    (hfail : ∃ t ∈ args ++ kwargs.map Prod.snd, d t = none) :
    decrypt_arguments d user func args kwargs =
      decryptFail α user (attemptedUpTo d (args ++ kwargs.map Prod.snd)) := by
  by_cases hargs : ∃ t ∈ args, d t = none
  · have h2 := decryptLoop_none d args hargs
    have hpair : decryptLoop d args = (attemptedUpTo d args, none) := by
      rw [← decryptLoop_fst d args, ← h2]
    rw [attemptedUpTo_append_of_fail d args _ hargs]
    unfold decrypt_arguments
    rw [hpair]
  · push_neg at hargs
    have hall : ∀ t ∈ args, d t ≠ none := hargs
    obtain ⟨nargs, hargsEq⟩ := decryptLoop_some_of_all d args hall
    have hkw : ∃ p ∈ kwargs, d p.2 = none := by
      obtain ⟨x, hx, hdx⟩ := hfail
      rcases List.mem_append.mp hx with hxa | hxk
      · exact absurd hdx (hall x hxa)
      · obtain ⟨p, hp, hpx⟩ := List.mem_map.mp hxk
        exact ⟨p, hp, by rw [hpx]; exact hdx⟩
    have h2 := decryptKwLoop_none d kwargs hkw
    have hpair : decryptKwLoop d kwargs =
        (attemptedUpTo d (kwargs.map Prod.snd), none) := by
      rw [← decryptKwLoop_fst d kwargs, ← h2]
    rw [attemptedUpTo_append_of_all d args _ hall]
    have hatt : attemptedUpTo d args = args := by
      have := attemptedUpTo_append_of_all d args [] hall
      simpa [attemptedUpTo] using this
    unfold decrypt_arguments
    rw [hargsEq, hpair, ← hatt, ← decryptLoop_fst, hargsEq]

/-- C6: with an authenticated user, a failing positional or keyword
token makes the wrapper log one warning naming that user, raise
`HTTPError(403)`, skip every token after the first failing one, and
never invoke the handler; when every token decrypts, the handler is
invoked on exactly the decrypted values. -/
theorem decrypt_arguments_contract {α : Type} (decrypt : String → Option Nat)
    (u : String) (func : List Nat → List (String × Nat) → α)
    (args : List String) (kwargs : List (String × String)) :
    ((∃ t ∈ args ++ kwargs.map Prod.snd, decrypt t = none) →
       decrypt_arguments decrypt (some u) func args kwargs =
         { logs := [LogMsg.undecryptable u],
           decryptCalls := attemptedUpTo decrypt (args ++ kwargs.map Prod.snd),
           invoked := false,
           result := PyResult.raised (PyExc.httpError 403) }) ∧
    (∀ new_args new_kwargs,
       args.mapM decrypt = some new_args →
       kwargs.mapM (fun p => (decrypt p.2).map fun n => (p.1, n))
           = some new_kwargs →
       decrypt_arguments decrypt (some u) func args kwargs =
         { logs := [], decryptCalls := args ++ kwargs.map Prod.snd,
           invoked := true,
           result := PyResult.ok (func new_args new_kwargs) }) := by
  constructor
  · intro hfail
    rw [decrypt_arguments_fail decrypt (some u) func args kwargs hfail]
    rfl
  · intro new_args new_kwargs hargs hkwargs
    unfold decrypt_arguments
    rw [decryptLoop_of_mapM decrypt args new_args hargs,
        decryptKwLoop_of_mapM decrypt kwargs new_kwargs hkwargs]

/-- C10: when `current_user` is `None` and a token fails to decrypt, the
failure branch evaluates `self.current_user.username` and so raises
`AttributeError` — no warning is logged and no `HTTPError(403)` is
produced (the handler is still never invoked). -/
theorem decrypt_arguments_no_user {α : Type} (decrypt : String → Option Nat)
    (func : List Nat → List (String × Nat) → α)
    (args : List String) (kwargs : List (String × String))
    (hfail : ∃ t ∈ args ++ kwargs.map Prod.snd, decrypt t = none) :
    decrypt_arguments decrypt none func args kwargs =
      { logs := [],
        decryptCalls := attemptedUpTo decrypt (args ++ kwargs.map Prod.snd),
        invoked := false,
        result := PyResult.raised PyExc.attributeError } := by
  rw [decrypt_arguments_fail decrypt none func args kwargs hfail]
  rfl

/-- Witness for C6: one valid token followed by an invalid one yields
the forbidden outcome without invoking the handler; all-valid tokens
reach the handler decrypted. -/
theorem decrypt_arguments_contract_witness :
    ((∃ t ∈ ["tokA", "tokB", "tokC"]
          ++ ([] : List (String × String)).map Prod.snd, dEx t = none) ∧
     decrypt_arguments dEx (some "alice") (fun a _ => a.length)
         ["tokA", "tokB", "tokC"] [] =
       { logs := [LogMsg.undecryptable "alice"],
         decryptCalls := attemptedUpTo dEx (["tokA", "tokB", "tokC"]
           ++ ([] : List (String × String)).map Prod.snd),
         invoked := false,
         result := PyResult.raised (PyExc.httpError 403) }) ∧
    (["tokA"].mapM dEx = some [1] ∧
     [("id", "tokC")].mapM (fun p => (dEx p.2).map fun n => (p.1, n))
         = some [("id", 1)] ∧
     decrypt_arguments dEx (some "alice") (fun a _ => a.length)
         ["tokA"] [("id", "tokC")] =
       { logs := [],
         decryptCalls := ["tokA"] ++ [("id", "tokC")].map Prod.snd,
         invoked := true, result := PyResult.ok 1 }) :=
  ⟨⟨⟨"tokB", by decide, by decide⟩,
    (decrypt_arguments_contract dEx "alice" (fun a _ => a.length)
        ["tokA", "tokB", "tokC"] []).1 ⟨"tokB", by decide, by decide⟩⟩,
   by decide, by decide,
   (decrypt_arguments_contract dEx "alice" (fun a _ => a.length)
       ["tokA"] [("id", "tokC")]).2 [1] [("id", 1)] (by decide) (by decide)⟩

/-- Witness for C10 at a concrete undecryptable token with
`current_user = None`. -/
theorem decrypt_arguments_no_user_witness :
    (∃ t ∈ ["tokB"] ++ ([] : List (String × String)).map Prod.snd,
        dEx t = none) ∧
    decrypt_arguments dEx none
        (fun a (_ : List (String × Nat)) => a.length) ["tokB"] [] =
      { logs := [],
        decryptCalls := attemptedUpTo dEx (["tokB"]
          ++ ([] : List (String × String)).map Prod.snd),
        invoked := false,
        result := PyResult.raised PyExc.attributeError } :=
  ⟨⟨"tokB", by decide, by decide⟩,
   decrypt_arguments_no_user dEx _ ["tokB"] []
     ⟨"tokB", by decide, by decide⟩⟩

/-! ### The TAR branch -/

theorem tarReadFiles_ok (members : List TarMember)
    (h : ∀ m ∈ members, m.isfile = true → ∃ b, m.content = Except.ok b) :
    tarReadFiles members =
      Except.ok ((members.filter fun m => m.isfile).map
        fun m => { filename := m.name, body := readBytes m.content }) := by
  induction members with
  | nil => rfl
  | cons m ms ih =>
    have ihs := ih fun x hx hxf => h x (List.mem_cons_of_mem m hx) hxf
    by_cases hf : m.isfile = true
    · obtain ⟨b, hb⟩ := h m (List.mem_cons_self m ms) hf
      simp [tarReadFiles, hf, hb, List.filter_cons, ihs, readBytes]
    · simp [tarReadFiles, hf, List.filter_cons, ihs]

/-- C5: on the TAR branch, exactly the regular-file members are
included — directories, symlinks and other kinds are silently skipped —
each contributing its stored name and fully read content, in the
container's enumeration order. -/
theorem extract_archive_tar_regular_files (fs : FS)
    (temp_name original_filename : String) (members : List TarMember)
    (hzip : endswith original_filename ".zip" = false)
    (htar : (endswith original_filename ".tar.gz"
             || endswith original_filename ".tar.bz2"
             || endswith original_filename ".tar") = true)
    (hparse : fs.tarParse temp_name = Except.ok members)
    (hread : ∀ m ∈ members, m.isfile = true → ∃ b, m.content = Except.ok b) :
    extract_archive fs temp_name original_filename =
      Except.ok (some ((members.filter fun m => m.isfile).map
        fun m => { filename := m.name, body := readBytes m.content })) := by
  unfold extract_archive
  simp [hzip, htar, hparse, tarReadFiles_ok members hread]

/-- Witness for C5: a TAR containing `a.txt`, a directory `dir`, and
`dir/b.txt` yields exactly the two regular files, in order. -/
theorem extract_archive_tar_regular_files_witness :
    (endswith "bundle.tar" ".zip" = false ∧
     (endswith "bundle.tar" ".tar.gz" || endswith "bundle.tar" ".tar.bz2"
       || endswith "bundle.tar" ".tar") = true ∧
     tarFS.tarParse "/tmp/tmpTar" = Except.ok tarMembersEx) ∧
    extract_archive tarFS "/tmp/tmpTar" "bundle.tar" =
      Except.ok (some [{ filename := "a.txt", body := [97] },
                       { filename := "dir/b.txt", body := [98, 99] }]) :=
  ⟨⟨by decide, by decide, by simp [tarFS]⟩,
   extract_archive_tar_regular_files tarFS "/tmp/tmpTar" "bundle.tar"
     tarMembersEx (by decide) (by decide) (by simp [tarFS])
     (by
       intro m hm hf
       rcases List.mem_cons.mp hm with rfl | hm
       · exact ⟨[97], rfl⟩
       rcases List.mem_cons.mp hm with rfl | hm
       · exact absurd hf (by simp)
       rcases List.mem_cons.mp hm with rfl | hm
       · exact ⟨[98, 99], rfl⟩
       · simp at hm)⟩

/-! ### Error contract of `extract_archive` -/

theorem zipReadAll_ok (entries : List (String × Except PyExc (List Nat)))
    (l : List FileEntry) (h : zipReadAll entries = Except.ok l) :
    (∀ p ∈ entries, ∃ b, p.2 = Except.ok b) ∧
    l = entries.map fun p => { filename := p.1, body := readBytes p.2 } := by
  induction entries generalizing l with
  | nil =>
    simp only [zipReadAll, Except.ok.injEq] at h
    simp [← h]
  | cons p ps ih =>
    obtain ⟨n, b⟩ := p
    cases hb : b with
    | error e => rw [hb] at h; simp [zipReadAll] at h
    | ok bytes =>
      rw [hb] at h
      cases hps : zipReadAll ps with
      | error e => rw [zipReadAll, hps] at h; simp at h
      | ok l2 =>
        rw [zipReadAll, hps] at h
        simp only [Except.ok.injEq] at h
        obtain ⟨ih1, ih2⟩ := ih l2 hps
        constructor
        · intro q hq
          rcases List.mem_cons.mp hq with rfl | hq
          · exact ⟨bytes, rfl⟩
          · exact ih1 q hq
        · simp [← h, hb, ih2, readBytes]

theorem tarReadFiles_ok_inv (members : List TarMember) (l : List FileEntry)
    (h : tarReadFiles members = Except.ok l) :
    (∀ m ∈ members, m.isfile = true → ∃ b, m.content = Except.ok b) ∧
    l = (members.filter fun m => m.isfile).map
      fun m => { filename := m.name, body := readBytes m.content } := by
  have hall : ∀ m ∈ members, m.isfile = true → ∃ b, m.content = Except.ok b := by
    induction members generalizing l with
    | nil => simp
    | cons m ms ih =>
      intro x hx hxf
      by_cases hf : m.isfile = true
      · rw [tarReadFiles, if_pos hf] at h
        cases hc : m.content with
        | error e => rw [hc] at h; simp at h
        | ok bytes =>
          rw [hc] at h
          cases hms : tarReadFiles ms with
          | error e => rw [hms] at h; simp at h
          | ok l2 =>
            rcases List.mem_cons.mp hx with rfl | hx
            · exact ⟨bytes, hc⟩
            · exact ih l2 hms x hx hxf
      · rw [tarReadFiles, if_neg hf] at h
        rcases List.mem_cons.mp hx with rfl | hx
        · exact absurd hxf hf
        · exact ih l h x hx hxf
  refine ⟨hall, ?_⟩
  rw [tarReadFiles_ok members hall] at h
  injection h with h2
  exact h2.symm

/-- `extract_archive` ofn a `.zip` name is the ZIP branch. -/
theorem extract_archive_zip_eq (fs : FS) (tn ofn : String)
    (hz : endswith ofn ".zip" = true) :
    extract_archive fs tn ofn =
      (match fs.zipParse ofn with
       | .error _ => .ok none
       | .ok entries =>
         match zipReadAll entries with
         | .error _ => .ok none
         | .ok l => .ok (some l)) := by
  unfold extract_archive
  rw [hz]
  rfl

/-- `extract_archive` ofn a TAR name is the TAR branch. -/
theorem extract_archive_tar_eq (fs : FS) (tn ofn : String)
    (hz : endswith ofn ".zip" = false)
    (ht : (endswith ofn ".tar.gz" || endswith ofn ".tar.bz2"
           || endswith ofn ".tar") = true) :
    extract_archive fs tn ofn =
      (match fs.tarParse tn with
       | .error e => if caughtByTarBranch e then .ok none else .error e
       | .ok members =>
         match tarReadFiles members with
         | .error e => if caughtByTarBranch e then .ok none else .error e
         | .ok l => .ok (some l)) := by
  unfold extract_archive
  rw [hz, ht]
  rfl

/-- `extract_archive` ofn any other name returns the sentinel at once. -/
theorem extract_archive_other_eq (fs : FS) (tn ofn : String)
    (hz : endswith ofn ".zip" = false)
    (ht : (endswith ofn ".tar.gz" || endswith ofn ".tar.bz2"
           || endswith ofn ".tar") = false) :
    extract_archive fs tn ofn = Except.ok none := by
  unfold extract_archive
  rw [hz, ht]
  rfl

/-- C3 counterexample: ofn the TAR branch an exception that is neither
`tarfile.TarError` nor `IOError` (here a `MemoryError` raised while
opening the container) is *not* caught: `extract_archive` raises to its
caller instead of returning the failure sentinel. -/
theorem extract_archive_can_raise :
    extract_archive tarRaisesOther "/tmp/t" "a.tar" =
      Except.error (PyExc.other "MemoryError") := rfl

/-- C3 (amended): `extract_archive` never returns partial data — any
returned entry list is the complete, fully read parse of the container —
and in the ZIP branch every exception collapses to the sentinel; but the
TAR branch catches only `tarfile.TarError` and `IOError`, so any other
exception there propagates to the caller. -/
theorem extract_archive_error_contract (fs : FS) (tn ofn : String) :
    (endswith ofn ".zip" = true →
       ∀ e, extract_archive fs tn ofn ≠ Except.error e) ∧
    (∀ e, extract_archive fs tn ofn = Except.error e →
       caughtByTarBranch e = false) ∧
    (∀ l, extract_archive fs tn ofn = Except.ok (some l) →
       (∃ entries, fs.zipParse ofn = Except.ok entries ∧
          (∀ p ∈ entries, ∃ b, p.2 = Except.ok b) ∧
          l = entries.map fun p =>
            { filename := p.1, body := readBytes p.2 }) ∨
       (∃ members, fs.tarParse tn = Except.ok members ∧
          (∀ m ∈ members, m.isfile = true → ∃ b, m.content = Except.ok b) ∧
          l = (members.filter fun m => m.isfile).map fun m =>
            { filename := m.name, body := readBytes m.content })) := by
  refine ⟨?_, ?_, ?_⟩
  · intro hz e
    rw [extract_archive_zip_eq fs tn ofn hz]
    split
    · simp
    · split
      · simp
      · simp
  · intro e he
    by_cases hz : endswith ofn ".zip" = true
    · rw [extract_archive_zip_eq fs tn ofn hz] at he
      split at he
      · simp at he
      · split at he
        · simp at he
        · simp at he
    · have hz0 : endswith ofn ".zip" = false := by simpa using hz
      by_cases ht : (endswith ofn ".tar.gz" || endswith ofn ".tar.bz2"
          || endswith ofn ".tar") = true
      · rw [extract_archive_tar_eq fs tn ofn hz0 ht] at he
        split at he
        · split at he
          · simp at he
          · next hc =>
              injection he with he2
              rw [← he2]
              simpa using hc
        · split at he
          · split at he
            · simp at he
            · next hc =>
                injection he with he2
                rw [← he2]
                simpa using hc
          · simp at he
      · have ht0 : (endswith ofn ".tar.gz" || endswith ofn ".tar.bz2"
            || endswith ofn ".tar") = false := by simpa using ht
        rw [extract_archive_other_eq fs tn ofn hz0 ht0] at he
        simp at he
  · intro l hl
    by_cases hz : endswith ofn ".zip" = true
    · left
      rw [extract_archive_zip_eq fs tn ofn hz] at hl
      split at hl
      · simp at hl
      · next entries heq =>
          split at hl
          · simp at hl
          · next l2 heq2 =>
              obtain ⟨ha, hb⟩ := zipReadAll_ok entries l2 heq2
              injection hl with hl2
              injection hl2 with hl3
              exact ⟨entries, heq, ha, by rw [← hl3, hb]⟩
    · have hz0 : endswith ofn ".zip" = false := by simpa using hz
      by_cases ht : (endswith ofn ".tar.gz" || endswith ofn ".tar.bz2"
          || endswith ofn ".tar") = true
      · right
        rw [extract_archive_tar_eq fs tn ofn hz0 ht] at hl
        split at hl
        · split at hl
          · simp at hl
          · simp at hl
        · next members heq =>
            split at hl
            · split at hl
              · simp at hl
              · simp at hl
            · next l2 heq2 =>
                obtain ⟨ha, hb⟩ := tarReadFiles_ok_inv members l2 heq2
                injection hl with hl2
                injection hl2 with hl3
                exact ⟨members, heq, ha, by rw [← hl3, hb]⟩
      · have ht0 : (endswith ofn ".tar.gz" || endswith ofn ".tar.bz2"
            || endswith ofn ".tar") = false := by simpa using ht
        rw [extract_archive_other_eq fs tn ofn hz0 ht0] at hl
        simp at hl

/-- Witness for the amended C3: a ZIP-branch failure yields the
sentinel rather than raising, and the exception that does escape the TAR
branch is one the branch does not catch. -/
theorem extract_archive_error_contract_witness :
    (endswith "x.zip" ".zip" = true ∧
     extract_archive zipAtTemp "/tmp/q" "x.zip" ≠
       Except.error PyExc.valueError) ∧
    (extract_archive tarRaisesOther "/tmp/t" "a.tar" =
       Except.error (PyExc.other "MemoryError") ∧
     caughtByTarBranch (PyExc.other "MemoryError") = false) :=
  ⟨⟨by decide,
    (extract_archive_error_contract zipAtTemp "/tmp/q" "x.zip").1
      (by decide) PyExc.valueError⟩,
   ⟨rfl,
    (extract_archive_error_contract tarRaisesOther "/tmp/t" "a.tar").2.1
      (PyExc.other "MemoryError") rfl⟩⟩

/-! ### The read loop over an exact multiple of the chunk size -/

/-- The session state after `p` bytes have been read and written in
full-chunk steps: position `p`, the first `p` bytes written, the size
counter at `p` bytes, all resources still held. -/
def midD (content : List Nat) (t0 : Rat) (p : Nat) : DState :=
  { content := content, pos := p, written := content.take p,
    sizeMB := (p : Rat) / 1024 / 1024, startTime := t0,
    handleOpen := true, tempDeleted := false, finished := false,
    connClosed := false, stopped := false, logs := [] }

theorem initD_eq_midD (content : List Nat) (t0 : Rat) :
    initD content t0 = midD content t0 0 := by
  simp [initD, midD]

/-- A step with at least one full chunk left reads exactly one chunk,
writes it, and reschedules. -/
theorem fetch_write_chunk_full (cs : Nat) (now t0 : Rat)
    (content : List Nat) (N k : Nat)
    (hlen : content.length = N * cs) (hk : k < N) :
    fetch_write_chunk cs now (midD content t0 (k * cs)) =
      midD content t0 ((k + 1) * cs) := by
  have h1 : k * cs + cs ≤ N * cs := by
    have h2 : (k + 1) * cs ≤ N * cs :=
      Nat.mul_le_mul_right cs (Nat.succ_le_of_lt hk)
    calc k * cs + cs = (k + 1) * cs := by ring
      _ ≤ N * cs := h2
  have hdata : ((content.drop (k * cs)).take cs).length = cs := by
    rw [List.length_take, List.length_drop, hlen]
    omega
  have hw : content.take (k * cs) ++ (content.drop (k * cs)).take cs
      = content.take ((k + 1) * cs) := by
    rw [show (k + 1) * cs = k * cs + cs by ring, List.take_add]
  have hs : ((k * cs : Nat) : Rat) / 1024 / 1024
        + ((cs : Nat) : Rat) / 1024 / 1024
      = (((k + 1) * cs : Nat) : Rat) / 1024 / 1024 := by
    push_cast
    ring
  have hp : k * cs + cs = (k + 1) * cs := by ring
  simp only [fetch_write_chunk, midD, hdata, lt_self_iff_false, if_false,
    Bool.false_eq_true, hw, hs, hp]

/-- The step after the whole file has been read is terminal: it reads
zero bytes, closes the handle, deletes the temporary file, logs the
duration, total size and size/duration throughput, finishes, and stops
rescheduling. -/
theorem fetch_write_chunk_last (cs : Nat) (now t0 : Rat)
    (content : List Nat) (N : Nat) (hcs : 0 < cs)
    (hlen : content.length = N * cs) :
    fetch_write_chunk cs now (midD content t0 (N * cs)) =
      { content := content, pos := content.length, written := content,
        sizeMB := (content.length : Rat) / 1024 / 1024, startTime := t0,
        handleOpen := false, tempDeleted := true, finished := true,
        connClosed := false, stopped := true,
        logs := [LogMsg.throughput (now - t0)
          ((content.length : Rat) / 1024 / 1024)
          (((content.length : Rat) / 1024 / 1024) / (now - t0))] } := by
  simp only [fetch_write_chunk, midD, ← hlen, List.drop_length, List.take_nil,
    List.length_nil, List.take_length, List.append_nil, List.nil_append,
    Nat.cast_zero, Nat.add_zero, zero_div, add_zero, Bool.false_eq_true,
    if_false, hcs, if_true]

/-- After `k ≤ N` scheduled steps over a file of exactly `N` chunks, the
session sits at position `k` chunks with everything so far written. -/
theorem stepIter_midD (cs : Nat) (now t0 : Rat) (content : List Nat)
    (N : Nat) (hlen : content.length = N * cs) :
    ∀ k, k ≤ N →
      stepIter cs now k (initD content t0) = midD content t0 (k * cs) := by
  intro k
  induction k with
  | zero =>
    intro _
    rw [initD_eq_midD]
    simp [stepIter]
  | succ k ih =>
    intro hk
    show fetch_write_chunk cs now (stepIter cs now k (initD content t0)) = _
    rw [ih (by omega)]
    exact fetch_write_chunk_full cs now t0 content N k hlen (by omega)

/-- C4: over a file of size exactly `N` chunks, the read loop runs
exactly `N + 1` steps (every step up to the `N`-th signals "reschedule",
so step `N + 1` runs); the last step starts at end of file, so it reads
zero bytes and is terminal: it closes the handle, deletes the temporary
file, logs duration, total size and throughput `size / elapsed`,
finishes the response and signals "do not reschedule"; the bytes written
are the file's bytes in order. -/
theorem delivery_exact_multiple (cs N : Nat) (content : List Nat)
    (t0 now : Rat) (hcs : 0 < cs) (hlen : content.length = N * cs) :
    (∀ k, k ≤ N → (stepIter cs now k (initD content t0)).stopped = false) ∧
    (stepIter cs now N (initD content t0)).pos = content.length ∧
    stepIter cs now (N + 1) (initD content t0) =
      { content := content, pos := content.length, written := content,
        sizeMB := (content.length : Rat) / 1024 / 1024, startTime := t0,
        handleOpen := false, tempDeleted := true, finished := true,
        connClosed := false, stopped := true,
        logs := [LogMsg.throughput (now - t0)
          ((content.length : Rat) / 1024 / 1024)
          (((content.length : Rat) / 1024 / 1024) / (now - t0))] } := by
  have hmid := stepIter_midD cs now t0 content N hlen
  refine ⟨fun k hk => by rw [hmid k hk]; rfl,
          by rw [hmid N le_rfl]; simp [midD, hlen], ?_⟩
  show fetch_write_chunk cs now (stepIter cs now N (initD content t0)) = _
  rw [hmid N le_rfl]
  exact fetch_write_chunk_last cs now t0 content N hcs hlen

/-- Witness for C4: a 4-byte file with chunk size 2 takes three steps;
the third reads nothing, deletes the temporary file and logs
size/elapsed throughput. -/
theorem delivery_exact_multiple_witness :
    (0 < 2 ∧ ([1, 2, 3, 4] : List Nat).length = 2 * 2) ∧
    ((∀ k, k ≤ 2 →
        (stepIter 2 1 k (initD [1, 2, 3, 4] 0)).stopped = false) ∧
     (stepIter 2 1 2 (initD [1, 2, 3, 4] 0)).pos =
       ([1, 2, 3, 4] : List Nat).length ∧
     stepIter 2 1 (2 + 1) (initD [1, 2, 3, 4] 0) =
       { content := [1, 2, 3, 4], pos := ([1, 2, 3, 4] : List Nat).length,
         written := [1, 2, 3, 4],
         sizeMB := (([1, 2, 3, 4] : List Nat).length : Rat) / 1024 / 1024,
         startTime := 0, handleOpen := false, tempDeleted := true,
         finished := true, connClosed := false, stopped := true,
         logs := [LogMsg.throughput (1 - 0)
           ((([1, 2, 3, 4] : List Nat).length : Rat) / 1024 / 1024)
           (((([1, 2, 3, 4] : List Nat).length : Rat) / 1024 / 1024)
             / (1 - 0))] }) :=
  ⟨⟨by decide, by decide⟩,
   delivery_exact_multiple 2 2 [1, 2, 3, 4] 0 1 (by decide) (by decide)⟩

end CmsServer
